import Mathlib

/-!
Shallow embedding of the attention-all-microbes repository
(`aam/losses.py`, `sepsis/model.py`, `amplicon_gpt/callbacks.py`,
`transfer_learning.py`) over exact rational arithmetic, together with proofs
about the embedded operations.

Tensors become functions out of `Fin` or `List`s of rows; floating point
becomes `ℚ`; the square root (whose exact value the properties below never
depend on) is a function parameter.
-/

namespace AamLosses

/-- `tf.matmul(embeddings, tf.transpose(embeddings)) i j`:
the dot product between embedding rows `i` and `j`. -/
def dot_product {b d : ℕ} (emb : Fin b → Fin d → ℚ) (i j : Fin b) : ℚ :=
  ∑ k : Fin d, emb i k * emb j k

/-- `tf.linalg.diag_part(dot_product) i`: the squared L2 norm of row `i`. -/
def square_norm {b d : ℕ} (emb : Fin b → Fin d → ℚ) (i : Fin b) : ℚ :=
  dot_product emb i i

/-- The `distances` tensor before clamping:
`square_norm[i] - 2 * dot_product[i,j] + square_norm[j]`. -/
def raw_distances {b d : ℕ} (emb : Fin b → Fin d → ℚ) (i j : Fin b) : ℚ :=
  square_norm emb i - 2 * dot_product emb i j + square_norm emb j

/-- `tf.maximum(distances, 0.0)`. -/
def clamped_distances {b d : ℕ} (emb : Fin b → Fin d → ℚ) (i j : Fin b) : ℚ :=
  max (raw_distances emb i j) 0

/-- `_pairwise_distances(embeddings, squared)` from `aam/losses.py`.
`sqrt` abstracts `tf.sqrt`; the epsilon added on the zero mask is `1e-16`. -/
def pairwise_distances {b d : ℕ} (sqrt : ℚ → ℚ) (squared : Bool)
    (emb : Fin b → Fin d → ℚ) (i j : Fin b) : ℚ :=
  let dist := clamped_distances emb i j
  if squared then dist
  else
    let mask : ℚ := if dist = 0 then 1 else 0
    sqrt (dist + mask * (1 / 10 ^ 16)) * (1 - mask)

/-- `inner(y_true, y_pred)` of `pairwise_loss(batch_size)` from `aam/losses.py`:
square `y_true` elementwise, take the squared pairwise distances of `y_pred`,
square the difference, keep the upper triangle including the diagonal
(`tf.linalg.band_part(difference, 0, -1)`), sum and divide by `comb(b, 2)`. -/
def pairwise_loss {b d : ℕ} (y_true : Fin b → Fin b → ℚ)
    (y_pred : Fin b → Fin d → ℚ) : ℚ :=
  (∑ i : Fin b, ∑ j : Fin b,
    if (i : ℕ) ≤ (j : ℕ) then
      ((y_true i j) ^ 2 - pairwise_distances (fun x => x) true y_pred i j) ^ 2
    else 0) / (Nat.choose b 2 : ℚ)

/-- Claim-side definition: the squared Euclidean distance between rows `i`
and `j` of `y_pred`. -/
def sqEuclidean {b d : ℕ} (y_pred : Fin b → Fin d → ℚ) (i j : Fin b) : ℚ :=
  ∑ k : Fin d, (y_pred i k - y_pred j k) ^ 2

end AamLosses

namespace AamLosses

theorem raw_distances_eq_sqEuclidean {b d : ℕ} (emb : Fin b → Fin d → ℚ)
    (i j : Fin b) : raw_distances emb i j = sqEuclidean emb i j := by
  unfold raw_distances sqEuclidean square_norm dot_product
  rw [Finset.mul_sum, ← Finset.sum_sub_distrib, ← Finset.sum_add_distrib]
  apply Finset.sum_congr rfl
  intro k _
  ring

theorem sqEuclidean_nonneg {b d : ℕ} (emb : Fin b → Fin d → ℚ) (i j : Fin b) :
    0 ≤ sqEuclidean emb i j :=
  Finset.sum_nonneg fun _ _ => sq_nonneg _

theorem clamped_distances_eq_sqEuclidean {b d : ℕ} (emb : Fin b → Fin d → ℚ)
    (i j : Fin b) : clamped_distances emb i j = sqEuclidean emb i j := by
  unfold clamped_distances
  rw [raw_distances_eq_sqEuclidean]
  exact max_eq_left (sqEuclidean_nonneg emb i j)

theorem clamped_distances_symm {b d : ℕ} (emb : Fin b → Fin d → ℚ)
    (i j : Fin b) : clamped_distances emb i j = clamped_distances emb j i := by
  unfold clamped_distances
  have hraw : raw_distances emb i j = raw_distances emb j i := by
    unfold raw_distances square_norm dot_product
    have hd : (∑ k : Fin d, emb i k * emb j k) =
        ∑ k : Fin d, emb j k * emb i k := by
      apply Finset.sum_congr rfl
      intro k _
      ring
    rw [hd]
    ring
  rw [hraw]

theorem pairwise_distances_true_eq {b d : ℕ} (sqrt : ℚ → ℚ)
    (emb : Fin b → Fin d → ℚ) (i j : Fin b) :
    pairwise_distances sqrt true emb i j = clamped_distances emb i j := rfl

theorem pairwise_distances_false_eq {b d : ℕ} (sqrt : ℚ → ℚ)
    (emb : Fin b → Fin d → ℚ) (i j : Fin b) :
    pairwise_distances sqrt false emb i j =
      if clamped_distances emb i j = 0 then 0
      else sqrt (clamped_distances emb i j) := by
  unfold pairwise_distances
  by_cases h : clamped_distances emb i j = 0
  · simp [h]
  · simp [h]

theorem pairwise_distances_sq_eq {b d : ℕ} (emb : Fin b → Fin d → ℚ)
    (i j : Fin b) :
    pairwise_distances (fun x => x) true emb i j = sqEuclidean emb i j := by
  rw [pairwise_distances_true_eq]
  exact clamped_distances_eq_sqEuclidean emb i j

/-- C1: for every `b ≥ 2`, every `b × b` tensor `y_true` and every `b × d`
embedding tensor `y_pred`, `pairwise_loss` returns the sum over the upper
triangle including the diagonal (`i ≤ j`) of
`(y_true[i,j]² - D[i,j])²`, divided by `C(b,2)`, where `D[i,j]` is the squared
Euclidean distance between rows `i` and `j` of `y_pred`; and the loss is `0`
exactly when `y_true[i,j]² = D[i,j]` for every pair `i ≤ j`. -/
theorem pairwise_loss_correct {b d : ℕ} (hb : 2 ≤ b)
    (y_true : Fin b → Fin b → ℚ) (y_pred : Fin b → Fin d → ℚ) :
    pairwise_loss y_true y_pred =
      (∑ i : Fin b, ∑ j : Fin b,
        if (i : ℕ) ≤ (j : ℕ) then
          ((y_true i j) ^ 2 - sqEuclidean y_pred i j) ^ 2
        else 0) / (Nat.choose b 2 : ℚ) ∧
    (pairwise_loss y_true y_pred = 0 ↔
      ∀ i j : Fin b, (i : ℕ) ≤ (j : ℕ) →
        (y_true i j) ^ 2 = sqEuclidean y_pred i j) := by
  have hrw : pairwise_loss y_true y_pred =
      (∑ i : Fin b, ∑ j : Fin b,
        if (i : ℕ) ≤ (j : ℕ) then
          ((y_true i j) ^ 2 - sqEuclidean y_pred i j) ^ 2
        else 0) / (Nat.choose b 2 : ℚ) := by
    unfold pairwise_loss
    congr 1
    apply Finset.sum_congr rfl
    intro i _
    apply Finset.sum_congr rfl
    intro j _
    rw [pairwise_distances_sq_eq]
  refine ⟨hrw, ?_⟩
  have hC : (0 : ℚ) < (Nat.choose b 2 : ℚ) := by
    exact_mod_cast Nat.choose_pos hb
  have hterm : ∀ i j : Fin b, (0 : ℚ) ≤
      (if (i : ℕ) ≤ (j : ℕ) then
        ((y_true i j) ^ 2 - sqEuclidean y_pred i j) ^ 2 else 0) := by
    intro i j
    split
    · exact sq_nonneg _
    · exact le_refl 0
  rw [hrw, div_eq_zero_iff]
  constructor
  · rintro (hsum | hCzero)
    · intro i j hij
      have hinner : (∑ j : Fin b,
          if (i : ℕ) ≤ (j : ℕ) then
            ((y_true i j) ^ 2 - sqEuclidean y_pred i j) ^ 2 else 0) = 0 :=
        (Finset.sum_eq_zero_iff_of_nonneg
          (fun i _ => Finset.sum_nonneg fun j _ => hterm i j)).mp hsum
          i (Finset.mem_univ i)
      have hj := (Finset.sum_eq_zero_iff_of_nonneg
        (fun j _ => hterm i j)).mp hinner j (Finset.mem_univ j)
      rw [if_pos hij] at hj
      have hsub := pow_eq_zero_iff (two_ne_zero) |>.mp hj
      exact sub_eq_zero.mp hsub
    · exact absurd hCzero (ne_of_gt hC)
  · intro hall
    left
    apply Finset.sum_eq_zero
    intro i _
    apply Finset.sum_eq_zero
    intro j _
    split
    · rename_i hij
      rw [hall i j hij]
      ring
    · rfl

/-- Witness for C1 at `b = 2`, `d = 1`: hypotheses are satisfiable and the
theorem evaluates the loss on a concrete input. -/
theorem pairwise_loss_correct_witness :
    pairwise_loss (fun _ _ : Fin 2 => (1 : ℚ))
      (fun (i : Fin 2) (_ : Fin 1) => (i : ℚ)) = 2 :=
  ((pairwise_loss_correct (by norm_num)
    (fun _ _ : Fin 2 => (1 : ℚ))
    (fun (i : Fin 2) (_ : Fin 1) => (i : ℚ))).1).trans
      (by norm_num [sqEuclidean, Fin.sum_univ_succ, Finset.filter_singleton])

/-- C8: the matrix returned by `_pairwise_distances` is symmetric with every
entry `≥ 0` (for any `sqrt` that is nonnegative on positive inputs, as the
floating-point square root is), and with `squared = false` every entry whose
clamped squared distance is exactly `0` — in particular every diagonal
entry — is mapped to exactly `0`, not to the square root of the added
epsilon. -/
theorem pairwise_distances_props {b d : ℕ} (sqrt : ℚ → ℚ)
    (hsqrt : ∀ x : ℚ, 0 < x → 0 ≤ sqrt x)
    (emb : Fin b → Fin d → ℚ) (squared : Bool) :
    (∀ i j, pairwise_distances sqrt squared emb i j =
      pairwise_distances sqrt squared emb j i) ∧
    (∀ i j, 0 ≤ pairwise_distances sqrt squared emb i j) ∧
    (∀ i j, clamped_distances emb i j = 0 →
      pairwise_distances sqrt false emb i j = 0) ∧
    (∀ i, pairwise_distances sqrt false emb i i = 0) := by
  have hzero : ∀ i j, clamped_distances emb i j = 0 →
      pairwise_distances sqrt false emb i j = 0 := by
    intro i j h0
    rw [pairwise_distances_false_eq, if_pos h0]
  have hdiag0 : ∀ i : Fin b, clamped_distances emb i i = 0 := by
    intro i
    rw [clamped_distances_eq_sqEuclidean]
    unfold sqEuclidean
    apply Finset.sum_eq_zero
    intro k _
    ring
  refine ⟨?_, ?_, hzero, fun i => hzero i i (hdiag0 i)⟩
  · intro i j
    cases squared with
    | true =>
        rw [pairwise_distances_true_eq, pairwise_distances_true_eq]
        exact clamped_distances_symm emb i j
    | false =>
        rw [pairwise_distances_false_eq, pairwise_distances_false_eq,
          clamped_distances_symm emb i j]
  · intro i j
    cases squared with
    | true =>
        rw [pairwise_distances_true_eq]
        exact le_max_right _ _
    | false =>
        rw [pairwise_distances_false_eq]
        by_cases h0 : clamped_distances emb i j = 0
        · rw [if_pos h0]
        · rw [if_neg h0]
          exact hsqrt _ (lt_of_le_of_ne (le_max_right _ _) (Ne.symm h0))

/-- Witness for C8: the `sqrt` hypothesis holds for the identity function, and
at a concrete `2 × 1` embedding the theorem yields symmetry of the entry
`(0,1)` with `(1,0)`. -/
theorem pairwise_distances_props_witness :
    pairwise_distances (fun x => x) false
      (fun (i : Fin 2) (_ : Fin 1) => (i : ℚ)) 0 1 =
    pairwise_distances (fun x => x) false
      (fun (i : Fin 2) (_ : Fin 1) => (i : ℚ)) 1 0 :=
  (pairwise_distances_props (fun x => x) (fun _ hx => le_of_lt hx)
    (fun (i : Fin 2) (_ : Fin 1) => (i : ℚ)) false).1 0 1

end AamLosses

namespace SepsisModelMae

/-- `denormalize`: `tensor * std + mean`. -/
def denormalize (mean std x : ℚ) : ℚ := x * std + mean

/-- One iteration of the loop in `AttentionRegression.mean_absolute_error`:
a batch is the list of `(y_true, y_pred)` pairs (the regression target from
`y["reg_out"]` and the model's regression output); the accumulator adds the
sum of absolute denormalized differences and the batch size. -/
def mae_step (mean std : ℚ) (acc : ℚ × ℕ) (batch : List (ℚ × ℚ)) : ℚ × ℕ :=
  (acc.1 + (batch.map (fun p =>
      |denormalize mean std p.1 - denormalize mean std p.2|)).sum,
   acc.2 + batch.length)

/-- `AttentionRegression.mean_absolute_error` from `sepsis/model.py`: loop over
the dataset accumulating `mae` and `counts`, then `mae += tf.reduce_sum(mae)`
(which doubles the scalar), then divide by `counts`. -/
def mean_absolute_error (mean std : ℚ)
    (dataset : List (List (ℚ × ℚ))) : ℚ :=
  match dataset.foldl (mae_step mean std) (0, 0) with
  | (mae, counts) => (mae + mae) / (counts : ℚ)

end SepsisModelMae

namespace TransferLearning

/-- Python `int()` applied to a rational: truncation toward zero. -/
def pyInt (q : ℚ) : ℤ := if 0 ≤ q then ⌊q⌋ else -⌊-q⌋

/-- `train_size = int(size * train_percent / batch_size) * batch_size`
from the `unifrac` command in `transfer_learning.py`. -/
def train_size (size : ℕ) (train_percent : ℚ) (batch_size : ℕ) : ℤ :=
  pyInt ((size : ℚ) * train_percent / (batch_size : ℚ)) * (batch_size : ℤ)

/-- `dataset.take(n)`; a negative count means the whole dataset. -/
def dsTake {α : Type} (n : ℤ) (ds : List α) : List α :=
  if n < 0 then ds else ds.take n.toNat

/-- `dataset.skip(n)`; a negative count skips the whole dataset. -/
def dsSkip {α : Type} (n : ℤ) (ds : List α) : List α :=
  if n < 0 then [] else ds.drop n.toNat

/-- `training_dataset = dataset.take(train_size)` with
`size = seq_dataset.cardinality()`. -/
def training_dataset {α : Type} (ds : List α) (train_percent : ℚ)
    (batch_size : ℕ) : List α :=
  dsTake (train_size ds.length train_percent batch_size) ds

/-- `val_data = dataset.skip(train_size)`. -/
def validation_dataset {α : Type} (ds : List α) (train_percent : ℚ)
    (batch_size : ℕ) : List α :=
  dsSkip (train_size ds.length train_percent batch_size) ds

end TransferLearning

namespace SepsisModelMae

theorem mae_foldl (mean std : ℚ) (dataset : List (List (ℚ × ℚ)))
    (a : ℚ) (c : ℕ) :
    dataset.foldl (mae_step mean std) (a, c) =
      (a + (dataset.map (fun batch => (batch.map (fun p =>
        |denormalize mean std p.1 - denormalize mean std p.2|)).sum)).sum,
       c + (dataset.map List.length).sum) := by
  induction dataset generalizing a c with
  | nil => simp
  | cons batch t ih =>
      simp only [List.foldl_cons, List.map_cons, List.sum_cons]
      rw [mae_step, ih]
      congr 1
      · ring
      · omega

/-- C9: for every dataset of batches, `AttentionRegression.mean_absolute_error`
returns twice the sum over all samples of the absolute difference between the
denormalized true and predicted regression values, divided by the total number
of samples, because the accumulated scalar is added to itself
(`mae += tf.reduce_sum(mae)`) before dividing by the count. -/
theorem mean_absolute_error_doubles (mean std : ℚ)
    (dataset : List (List (ℚ × ℚ))) :
    mean_absolute_error mean std dataset =
      2 * (dataset.map (fun batch => (batch.map (fun p =>
        |denormalize mean std p.1 - denormalize mean std p.2|)).sum)).sum
        / ((dataset.map List.length).sum : ℚ) := by
  unfold mean_absolute_error
  rw [mae_foldl]
  simp only [zero_add]
  ring_nf

end SepsisModelMae

namespace TransferLearning

/-- C10 counterexample: with dataset `[0,1,2,3,4]` (so `size = 5`),
`batch_size = 2` and `train_percent = 2`, the train size is `10`, the
training set is the whole dataset with `5` samples, and `5` is not a
multiple of `batch_size = 2`, contradicting the claim's assertion that the
number of training samples is always a multiple of `batch_size`. -/
theorem unifrac_split_counterexample :
    train_size 5 2 2 = 10 ∧
    (training_dataset [0, 1, 2, 3, 4] 2 2).length = 5 ∧
    ¬ (2 ∣ (training_dataset [0, 1, 2, 3, 4] 2 2).length) := by
  refine ⟨?_, ?_, ?_⟩ <;> norm_num [train_size, training_dataset, dsTake, pyInt]

/-- C10 amended: for every dataset, every `batch_size > 0` and every
`train_percent` with `0 ≤ train_percent ≤ 1` (the claim fails for
`train_percent > 1`), the training set is `dataset.take(train_size)` and the
validation set `dataset.skip(train_size)` with
`train_size = ⌊size * train_percent / batch_size⌋ * batch_size`; they are
disjoint and cover the dataset, and the number of training samples equals
`train_size`, a multiple of `batch_size` that is at most `size`. -/
theorem unifrac_split_correct {α : Type} (ds : List α) (batch_size : ℕ)
    (p : ℚ) (hb : 0 < batch_size) (hp0 : 0 ≤ p) (hp1 : p ≤ 1) :
    train_size ds.length p batch_size =
      ⌊(ds.length : ℚ) * p / (batch_size : ℚ)⌋ * (batch_size : ℤ) ∧
    training_dataset ds p batch_size =
      ds.take (train_size ds.length p batch_size).toNat ∧
    validation_dataset ds p batch_size =
      ds.drop (train_size ds.length p batch_size).toNat ∧
    training_dataset ds p batch_size ++ validation_dataset ds p batch_size
      = ds ∧
    (batch_size : ℤ) ∣ train_size ds.length p batch_size ∧
    (training_dataset ds p batch_size).length =
      (train_size ds.length p batch_size).toNat ∧
    batch_size ∣ (training_dataset ds p batch_size).length ∧
    (training_dataset ds p batch_size).length ≤ ds.length := by
  have hq0 : (0 : ℚ) ≤ (ds.length : ℚ) * p / (batch_size : ℚ) :=
    div_nonneg (mul_nonneg (Nat.cast_nonneg _) hp0) (Nat.cast_nonneg _)
  have hts_eq : train_size ds.length p batch_size =
      ⌊(ds.length : ℚ) * p / (batch_size : ℚ)⌋ * (batch_size : ℤ) := by
    unfold train_size pyInt
    rw [if_pos hq0]
  have hts0 : 0 ≤ train_size ds.length p batch_size := by
    rw [hts_eq]
    exact mul_nonneg (Int.floor_nonneg.mpr hq0) (Int.ofNat_nonneg _)
  have hnotlt : ¬ train_size ds.length p batch_size < 0 := not_lt.mpr hts0
  have htr : training_dataset ds p batch_size =
      ds.take (train_size ds.length p batch_size).toNat := by
    unfold training_dataset dsTake
    rw [if_neg hnotlt]
  have hva : validation_dataset ds p batch_size =
      ds.drop (train_size ds.length p batch_size).toNat := by
    unfold validation_dataset dsSkip
    rw [if_neg hnotlt]
  have hts_le : train_size ds.length p batch_size ≤ (ds.length : ℤ) := by
    rw [hts_eq]
    have hbq : (0 : ℚ) < (batch_size : ℚ) := by exact_mod_cast hb
    have h1 : ((⌊(ds.length : ℚ) * p / (batch_size : ℚ)⌋ : ℚ))
        * (batch_size : ℚ) ≤
        ((ds.length : ℚ) * p / (batch_size : ℚ)) * (batch_size : ℚ) :=
      mul_le_mul_of_nonneg_right (Int.floor_le _) (le_of_lt hbq)
    rw [div_mul_cancel₀ _ (ne_of_gt hbq)] at h1
    have h2 : (ds.length : ℚ) * p ≤ (ds.length : ℚ) := by
      calc (ds.length : ℚ) * p ≤ (ds.length : ℚ) * 1 :=
            mul_le_mul_of_nonneg_left hp1 (Nat.cast_nonneg _)
        _ = (ds.length : ℚ) := mul_one _
    have h3 : ((⌊(ds.length : ℚ) * p / (batch_size : ℚ)⌋ : ℚ))
        * (batch_size : ℚ) ≤ (ds.length : ℚ) := le_trans h1 h2
    exact_mod_cast h3
  have htoNat_le : (train_size ds.length p batch_size).toNat ≤ ds.length := by
    omega
  have hlen : (training_dataset ds p batch_size).length =
      (train_size ds.length p batch_size).toNat := by
    rw [htr, List.length_take]
    omega
  have hdvd : (batch_size : ℤ) ∣ train_size ds.length p batch_size := by
    rw [hts_eq]
    exact ⟨_, mul_comm _ _⟩
  refine ⟨hts_eq, htr, hva, ?_, hdvd, hlen, ?_, ?_⟩
  · rw [htr, hva]
    exact List.take_append_drop _ ds
  · rw [hlen]
    have h := hdvd
    rw [← Int.toNat_of_nonneg hts0] at h
    exact_mod_cast h
  · rw [hlen]
    exact htoNat_le

/-- Witness for the amended C10 at `ds = [0,1,2,3]`, `batch_size = 2`,
`train_percent = 1/2`: the hypotheses hold and the two sets cover the
dataset. -/
theorem unifrac_split_correct_witness :
    training_dataset [0, 1, 2, 3] (1 / 2 : ℚ) 2
      ++ validation_dataset [0, 1, 2, 3] (1 / 2 : ℚ) 2 = [0, 1, 2, 3] :=
  (unifrac_split_correct [0, 1, 2, 3] 2 (1 / 2 : ℚ) (by norm_num)
    (by norm_num) (by norm_num)).2.2.2.1

end TransferLearning

namespace AmpliconCallbacks

/-- `MAE_Scatter.on_epoch_end` from `amplicon_gpt/callbacks.py`: when
`cur_step % 5 == 0` the callback saves the model and writes the MAE scatter
figure and sets `cur_step` to `0`; in every call `cur_step` is then
incremented.  `steps_per_checkpoint` is accepted by the constructor but never
read by this method.  Returns `(acted, new cur_step)`. -/
def mae_scatter_on_epoch_end (steps_per_checkpoint cur_step : ℕ) : Bool × ℕ :=
  if cur_step % 5 = 0 then (true, 0 + 1) else (false, cur_step + 1)

/-- `ProjectEncoder.on_epoch_end`: the identical counter logic around
`_log_epoch_data()`. -/
def project_encoder_on_epoch_end (cur_step : ℕ) : Bool × ℕ :=
  if cur_step % 5 = 0 then (true, 0 + 1) else (false, cur_step + 1)

/-- `cur_step` of a `MAE_Scatter` after `k` calls; the constructor sets `0`. -/
def mae_scatter_state (spc : ℕ) : ℕ → ℕ
  | 0 => 0
  | k + 1 => (mae_scatter_on_epoch_end spc (mae_scatter_state spc k)).2

/-- Whether `MAE_Scatter` performs its logging action on its `e+1`-st call,
i.e. at the end of epoch `e` of the run. -/
def mae_scatter_acts (spc e : ℕ) : Bool :=
  (mae_scatter_on_epoch_end spc (mae_scatter_state spc e)).1

/-- `cur_step` of a `ProjectEncoder` after `k` calls; the constructor sets `0`. -/
def project_encoder_state : ℕ → ℕ
  | 0 => 0
  | k + 1 => (project_encoder_on_epoch_end (project_encoder_state k)).2

/-- Whether `ProjectEncoder` logs on its `e+1`-st call. -/
def project_encoder_acts (e : ℕ) : Bool :=
  (project_encoder_on_epoch_end (project_encoder_state e)).1

end AmpliconCallbacks

namespace AmpliconCallbacks

theorem mae_scatter_state_succ (spc k : ℕ) :
    mae_scatter_state spc (k + 1) = k % 5 + 1 := by
  induction k with
  | zero => rfl
  | succ n ih =>
      show (mae_scatter_on_epoch_end spc (mae_scatter_state spc (n + 1))).2
        = (n + 1) % 5 + 1
      rw [ih]
      unfold mae_scatter_on_epoch_end
      by_cases h : (n % 5 + 1) % 5 = 0
      · rw [if_pos h]
        omega
      · rw [if_neg h]
        omega

theorem project_encoder_state_succ (k : ℕ) :
    project_encoder_state (k + 1) = k % 5 + 1 := by
  induction k with
  | zero => rfl
  | succ n ih =>
      show (project_encoder_on_epoch_end (project_encoder_state (n + 1))).2
        = (n + 1) % 5 + 1
      rw [ih]
      unfold project_encoder_on_epoch_end
      by_cases h : (n % 5 + 1) % 5 = 0
      · rw [if_pos h]
        omega
      · rw [if_neg h]
        omega

theorem mae_scatter_acts_iff (spc e : ℕ) :
    mae_scatter_acts spc e = true ↔ e % 5 = 0 := by
  unfold mae_scatter_acts
  cases e with
  | zero => simp [mae_scatter_state, mae_scatter_on_epoch_end]
  | succ n =>
      rw [mae_scatter_state_succ]
      unfold mae_scatter_on_epoch_end
      by_cases h : (n % 5 + 1) % 5 = 0
      · rw [if_pos h]
        have h5 : (n + 1) % 5 = 0 := by omega
        simp [h5]
      · rw [if_neg h]
        have h5 : ¬ (n + 1) % 5 = 0 := by omega
        simp [h5]

theorem project_encoder_acts_iff (e : ℕ) :
    project_encoder_acts e = true ↔ e % 5 = 0 := by
  unfold project_encoder_acts
  cases e with
  | zero => simp [project_encoder_state, project_encoder_on_epoch_end]
  | succ n =>
      rw [project_encoder_state_succ]
      unfold project_encoder_on_epoch_end
      by_cases h : (n % 5 + 1) % 5 = 0
      · rw [if_pos h]
        have h5 : (n + 1) % 5 = 0 := by omega
        simp [h5]
      · rw [if_neg h]
        have h5 : ¬ (n + 1) % 5 = 0 := by omega
        simp [h5]

/-- C5: both `MAE_Scatter.on_epoch_end` and `ProjectEncoder.on_epoch_end`
perform their logging action exactly on the 1st, 6th, 11th, ... calls of a
run — i.e. on epoch `e` with `e % 5 = 0` — independent of the
`steps_per_checkpoint` argument; after a logging call `cur_step` is reset to
`0`, and `cur_step` is incremented by `1` at the end of every call. -/
theorem callbacks_period_five (spc spc2 e : ℕ) :
    (mae_scatter_acts spc e = true ↔ e % 5 = 0) ∧
    (project_encoder_acts e = true ↔ e % 5 = 0) ∧
    mae_scatter_acts spc e = mae_scatter_acts spc2 e ∧
    mae_scatter_state spc (e + 1) =
      (if mae_scatter_acts spc e then 0 else mae_scatter_state spc e) + 1 ∧
    project_encoder_state (e + 1) =
      (if project_encoder_acts e then 0 else project_encoder_state e) + 1 := by
  refine ⟨mae_scatter_acts_iff spc e, project_encoder_acts_iff e, ?_, ?_, ?_⟩
  · by_cases h : e % 5 = 0
    · rw [(mae_scatter_acts_iff spc e).mpr h, (mae_scatter_acts_iff spc2 e).mpr h]
    · have h1 : mae_scatter_acts spc e = false := by
        cases hb : mae_scatter_acts spc e
        · rfl
        · exact absurd ((mae_scatter_acts_iff spc e).mp hb) h
      have h2 : mae_scatter_acts spc2 e = false := by
        cases hb : mae_scatter_acts spc2 e
        · rfl
        · exact absurd ((mae_scatter_acts_iff spc2 e).mp hb) h
      rw [h1, h2]
  · show (mae_scatter_on_epoch_end spc (mae_scatter_state spc e)).2 = _
    unfold mae_scatter_acts mae_scatter_on_epoch_end
    by_cases h : mae_scatter_state spc e % 5 = 0
    · simp [h]
    · simp [h]
  · show (project_encoder_on_epoch_end (project_encoder_state e)).2 = _
    unfold project_encoder_acts project_encoder_on_epoch_end
    by_cases h : project_encoder_state e % 5 = 0
    · simp [h]
    · simp [h]

end AmpliconCallbacks

namespace SepsisSerialization

/-- The configuration dictionary produced by `AttentionRegression.get_config`:
the base Keras config merged with `mean`, `std` and the serialized
`feature_emb`, `binary_loadings` and `regressor` components.  `S` is the type
of serialized component payloads, `B` the opaque base-config payload. -/
structure AttnConfig (S B : Type) where
  base : B
  mean : ℚ
  std : ℚ
  feature_emb : S
  binary_loadings : S
  regressor : S

/-- The configuration fields of an `AttentionRegression` model set by
`__init__`: `mean`, `std` and the three layer components (of opaque layer
type `L`). -/
structure AttnModel (L : Type) where
  mean : ℚ
  std : ℚ
  feature_emb : L
  binary_loadings : L
  regressor : L

/-- `AttentionRegression.get_config`: merge the base config with `mean`,
`std` and `tf.keras.saving.serialize_keras_object` of each component. -/
def get_config {L S B : Type} (serialize : L → S) (base : B)
    (m : AttnModel L) : AttnConfig S B :=
  { base := base
    mean := m.mean
    std := m.std
    feature_emb := serialize m.feature_emb
    binary_loadings := serialize m.binary_loadings
    regressor := serialize m.regressor }

/-- `AttentionRegression.from_config`: replace the three component entries by
`tf.keras.saving.deserialize_keras_object` of themselves and call
`cls(**config)`. -/
def from_config {L S B : Type} (deserialize : S → L)
    (c : AttnConfig S B) : AttnModel L :=
  { mean := c.mean
    std := c.std
    feature_emb := deserialize c.feature_emb
    binary_loadings := deserialize c.binary_loadings
    regressor := deserialize c.regressor }

end SepsisSerialization

namespace SepsisSerialization

/-- C6: for every model `m`, `from_config (get_config m)` yields a model whose
`mean` and `std` equal `m`'s and whose `feature_emb`, `binary_loadings` and
`regressor` are the deserializations of the serializations of `m`'s
components; hence whenever deserialization inverts serialization (as the
Keras saving API guarantees for registered serializables), `get_config`
followed by `from_config` is an identity on the configuration fields. -/
theorem attention_regression_roundtrip {L S B : Type} (serialize : L → S)
    (deserialize : S → L) (base : B) (m : AttnModel L) :
    (from_config deserialize (get_config serialize base m)).mean = m.mean ∧
    (from_config deserialize (get_config serialize base m)).std = m.std ∧
    (from_config deserialize (get_config serialize base m)).feature_emb =
      deserialize (serialize m.feature_emb) ∧
    (from_config deserialize (get_config serialize base m)).binary_loadings =
      deserialize (serialize m.binary_loadings) ∧
    (from_config deserialize (get_config serialize base m)).regressor =
      deserialize (serialize m.regressor) ∧
    ((∀ x : L, deserialize (serialize x) = x) →
      from_config deserialize (get_config serialize base m) = m) := by
  refine ⟨rfl, rfl, rfl, rfl, rfl, fun h => ?_⟩
  cases m
  simp [from_config, get_config, h]

/-- Witness for C6 with `L = S = B = ℚ` and identity serialization: the
round-trip hypothesis holds and reproduces a concrete model. -/
theorem attention_regression_roundtrip_witness :
    from_config (fun x : ℚ => x)
      (get_config (fun x : ℚ => x) (0 : ℚ)
        (⟨1, 2, 3, 4, 5⟩ : AttnModel ℚ)) = ⟨1, 2, 3, 4, 5⟩ :=
  (attention_regression_roundtrip (fun x : ℚ => x) (fun x : ℚ => x) 0
    ⟨1, 2, 3, 4, 5⟩).2.2.2.2.2 (fun _ => rfl)

end SepsisSerialization

namespace UnifracCommand

/-- The `unifrac` command of `transfer_learning.py` as a sequence of
library-call outcomes, each of which may raise (`Except.error`).  The command
contains no `try`/`except`, so it is the plain monadic composition:
load the JSON config, build the sequencing and unifrac datasets, combine
them, split (a pure `take`/`skip`, see `TransferLearning`), build and compile
the model and call `model.fit`. -/
def unifrac_cmd {ε Cfg SD UD DS M H : Type}
    (load_config : Except ε Cfg)
    (get_sequencing_dataset : Cfg → Except ε SD)
    (get_unifrac_dataset : Cfg → Except ε UD)
    (combine_seq_dist_dataset : SD → UD → Cfg → Except ε DS)
    (split : DS → Cfg → DS × DS)
    (transfer_learn_base : Cfg → Except ε M)
    (compile_model : M → Except ε M)
    (fit : M → DS → DS → Except ε H) : Except ε H := do
  let config ← load_config
  let seq ← get_sequencing_dataset config
  let uni ← get_unifrac_dataset config
  let ds ← combine_seq_dist_dataset seq uni config
  let tv := split ds config
  let base ← transfer_learn_base config
  let model ← compile_model base
  fit model tv.1 tv.2

end UnifracCommand

namespace UnifracCommand

theorem except_bind_ok {ε α β : Type} (a : α) (f : α → Except ε β) :
    (Except.ok a >>= f) = f a := rfl

theorem except_bind_error {ε α β : Type} (e : ε) (f : α → Except ε β) :
    ((Except.error e : Except ε α) >>= f) = Except.error e := rfl

/-- C7: the `unifrac` command (and every operation of the repository, all of
which are plain compositions with no exception handler) propagates an
exception raised by any underlying library call unchanged, and when every
call returns normally it returns `model.fit`'s result without converting it:
no repository-defined error value is ever substituted. -/
theorem unifrac_cmd_propagates {ε Cfg SD UD DS M H : Type}
    (load_config : Except ε Cfg)
    (get_sequencing_dataset : Cfg → Except ε SD)
    (get_unifrac_dataset : Cfg → Except ε UD)
    (combine_seq_dist_dataset : SD → UD → Cfg → Except ε DS)
    (split : DS → Cfg → DS × DS)
    (transfer_learn_base : Cfg → Except ε M)
    (compile_model : M → Except ε M)
    (fit : M → DS → DS → Except ε H) :
    (∀ e, load_config = .error e →
      unifrac_cmd load_config get_sequencing_dataset get_unifrac_dataset
        combine_seq_dist_dataset split transfer_learn_base compile_model fit
        = .error e) ∧
    (∀ e c, load_config = .ok c → get_sequencing_dataset c = .error e →
      unifrac_cmd load_config get_sequencing_dataset get_unifrac_dataset
        combine_seq_dist_dataset split transfer_learn_base compile_model fit
        = .error e) ∧
    (∀ e c s, load_config = .ok c → get_sequencing_dataset c = .ok s →
      get_unifrac_dataset c = .error e →
      unifrac_cmd load_config get_sequencing_dataset get_unifrac_dataset
        combine_seq_dist_dataset split transfer_learn_base compile_model fit
        = .error e) ∧
    (∀ e c s u, load_config = .ok c → get_sequencing_dataset c = .ok s →
      get_unifrac_dataset c = .ok u →
      combine_seq_dist_dataset s u c = .error e →
      unifrac_cmd load_config get_sequencing_dataset get_unifrac_dataset
        combine_seq_dist_dataset split transfer_learn_base compile_model fit
        = .error e) ∧
    (∀ e c s u d, load_config = .ok c → get_sequencing_dataset c = .ok s →
      get_unifrac_dataset c = .ok u → combine_seq_dist_dataset s u c = .ok d →
      transfer_learn_base c = .error e →
      unifrac_cmd load_config get_sequencing_dataset get_unifrac_dataset
        combine_seq_dist_dataset split transfer_learn_base compile_model fit
        = .error e) ∧
    (∀ e c s u d b, load_config = .ok c → get_sequencing_dataset c = .ok s →
      get_unifrac_dataset c = .ok u → combine_seq_dist_dataset s u c = .ok d →
      transfer_learn_base c = .ok b → compile_model b = .error e →
      unifrac_cmd load_config get_sequencing_dataset get_unifrac_dataset
        combine_seq_dist_dataset split transfer_learn_base compile_model fit
        = .error e) ∧
    (∀ c s u d b m, load_config = .ok c → get_sequencing_dataset c = .ok s →
      get_unifrac_dataset c = .ok u → combine_seq_dist_dataset s u c = .ok d →
      transfer_learn_base c = .ok b → compile_model b = .ok m →
      unifrac_cmd load_config get_sequencing_dataset get_unifrac_dataset
        combine_seq_dist_dataset split transfer_learn_base compile_model fit
        = fit m (split d c).1 (split d c).2) := by
  refine ⟨?_, ?_, ?_, ?_, ?_, ?_, ?_⟩
  · intro e h
    simp only [unifrac_cmd, h, except_bind_ok, except_bind_error]
  · intro e c h1 h2
    simp only [unifrac_cmd, h1, h2, except_bind_ok, except_bind_error]
  · intro e c s h1 h2 h3
    simp only [unifrac_cmd, h1, h2, h3, except_bind_ok, except_bind_error]
  · intro e c s u h1 h2 h3 h4
    simp only [unifrac_cmd, h1, h2, h3, h4, except_bind_ok, except_bind_error]
  · intro e c s u d h1 h2 h3 h4 h5
    simp only [unifrac_cmd, h1, h2, h3, h4, h5, except_bind_ok,
      except_bind_error]
  · intro e c s u d b h1 h2 h3 h4 h5 h6
    simp only [unifrac_cmd, h1, h2, h3, h4, h5, h6, except_bind_ok,
      except_bind_error]
  · intro c s u d b m h1 h2 h3 h4 h5 h6
    simp only [unifrac_cmd, h1, h2, h3, h4, h5, h6, except_bind_ok,
      except_bind_error]

/-- Witness for C7 with all payload types `ℕ` and error type `String`: when the
config load raises, the command propagates exactly that error. -/
theorem unifrac_cmd_propagates_witness :
    unifrac_cmd (Except.error "io error" : Except String ℕ)
      (fun _ : ℕ => (Except.ok 0 : Except String ℕ))
      (fun _ : ℕ => (Except.ok 0 : Except String ℕ))
      (fun _ _ _ : ℕ => (Except.ok 0 : Except String ℕ))
      (fun (d : ℕ) (_ : ℕ) => (d, d))
      (fun _ : ℕ => (Except.ok 0 : Except String ℕ))
      (fun m : ℕ => (Except.ok m : Except String ℕ))
      (fun _ _ _ : ℕ => (Except.ok 7 : Except String ℕ))
      = Except.error "io error" :=
  (unifrac_cmd_propagates (Except.error "io error" : Except String ℕ)
    (fun _ : ℕ => (Except.ok 0 : Except String ℕ))
    (fun _ : ℕ => (Except.ok 0 : Except String ℕ))
    (fun _ _ _ : ℕ => (Except.ok 0 : Except String ℕ))
    (fun (d : ℕ) (_ : ℕ) => (d, d))
    (fun _ : ℕ => (Except.ok 0 : Except String ℕ))
    (fun m : ℕ => (Except.ok m : Except String ℕ))
    (fun _ _ _ : ℕ => (Except.ok 7 : Except String ℕ))).1 "io error" rfl

end UnifracCommand

namespace SepsisTrainStep

/-- One sample of a training batch as seen inside
`AttentionRegression.train_step`:  `y` is `y["reg_out"]`, `regression` the
model's regression output for the sample, and `tokens`, `token_mask`,
`logits` the sample's rows of `outputs["tokens"]`, `outputs["token_mask"]`
and `outputs["embeddings"]` (per-position class logits from
`binary_loadings`). -/
structure TrainSample (c : ℕ) where
  y : ℚ
  regression : ℚ
  tokens : List ℤ
  token_mask : List Bool
  logits : List (Fin c → ℚ)

/-- `labels = tf.add(cast(tokens > 0, int64), cast(token_mask, int64))`. -/
def labelsOf {c : ℕ} (s : TrainSample c) : List ℤ :=
  List.zipWith
    (fun t m => (if 0 < t then (1 : ℤ) else 0) + (if m then 1 else 0))
    s.tokens s.token_mask

/-- The number of positions of one sample whose label equals `1`
(the "added" class). -/
def addedCount {c : ℕ} (s : TrainSample c) : ℕ :=
  ((labelsOf s).filter (fun l => l = 1)).length

/-- `max_added = tf.reduce_max(tf.reduce_sum(cast(labels == 1), axis=1))`. -/
def max_added {c : ℕ} (batch : List (TrainSample c)) : ℕ :=
  (batch.map addedCount).foldl max 0

/-- Python slice `xs[:m]`. -/
def sliceFirst {α : Type} (m : ℕ) (xs : List α) : List α := xs.take m

/-- Python slice `xs[-m:]`: for `m = 0` the begin index `-0` is `0`, so the
result is the whole list; otherwise the last `m` elements. -/
def sliceLast {α : Type} (m : ℕ) (xs : List α) : List α :=
  if m = 0 then xs else xs.drop (xs.length - m)

/-- `select_equal_class`: concatenate `xs[:max_added]` (intended true-class
positions) with `xs[-max_added:]` (intended added-class positions), applied
to the embeddings and labels of one sample. -/
def select_equal_class {α β : Type} (m : ℕ) (emb : List α)
    (labels : List β) : List α × List β :=
  (sliceFirst m emb ++ sliceLast m emb,
   sliceFirst m labels ++ sliceLast m labels)

/-- One token's contribution to
`SparseCategoricalCrossentropy(ignore_class=0, from_logits=True,
reduction="none")`: positions labelled `0` (padding) contribute `0`, every
other position the cross-entropy `cce` of its label against its logits. -/
def token_loss {c : ℕ} (cce : ℤ → (Fin c → ℚ) → ℚ) (label : ℤ)
    (logit : Fin c → ℚ) : ℚ :=
  if label = 0 then 0 else cce label logit

/-- `tf.reduce_sum(self.loss_loadings(labels, embeddings), axis=-1)` for one
sample, after `select_equal_class` resampling. -/
def conf_loss_of {c : ℕ} (cce : ℤ → (Fin c → ℚ) → ℚ) (m : ℕ)
    (s : TrainSample c) : ℚ :=
  (List.zipWith (token_loss cce)
    (select_equal_class m s.logits (labelsOf s)).2
    (select_equal_class m s.logits (labelsOf s)).1).sum

/-- `self.loss_reg(y, outputs["regression"])`: Keras `MeanSquaredError`,
the mean over the batch of the squared differences. -/
def mse_loss {c : ℕ} (batch : List (TrainSample c)) : ℚ :=
  (batch.map (fun s => (s.y - s.regression) ^ 2)).sum / (batch.length : ℚ)

/-- State of a `tf.keras.metrics.Mean`: running total and element count. -/
structure MeanState where
  total : ℚ
  count : ℕ

/-- `Mean.update_state(values)`: add the sum of the values and their count. -/
def mean_update (st : MeanState) (values : List ℚ) : MeanState :=
  ⟨st.total + values.sum, st.count + values.length⟩

/-- `Mean.result()`: total over count. -/
def mean_result (st : MeanState) : ℚ := st.total / (st.count : ℚ)

/-- Modelled from the spec: the metric constructed as
`MAE(mean, std, name="mae")` comes from `aam.metrics`, whose source file is
not among the sources; per the spec it reports the running mean of the
denormalized absolute error, denormalizing both arguments with the model's
`mean` and `std`. -/
def mae_metric_update (mean std : ℚ) (st : MeanState) (ys preds : List ℚ) :
    MeanState :=
  ⟨st.total + (List.zipWith
      (fun t p => |(t * std + mean) - (p * std + mean)|) ys preds).sum,
   st.count + ys.length⟩

/-- Everything `AttentionRegression.train_step` computes and returns:
`loss_vec` is the tensor `loss` after `loss += conf_loss` (a per-sample
vector, since `conf_loss` has shape `(batch,)`), `grad_target` the tensor
handed to `tape.gradient`, and `logs` the returned dictionary
`(loss, confidence, mae)`. -/
structure TrainStepOutcome where
  loss_vec : List ℚ
  conf_loss : List ℚ
  grad_target : List ℚ
  loss_tracker : MeanState
  confidence_tracker : MeanState
  mae_metric : MeanState
  logs : ℚ × ℚ × ℚ

/-- `AttentionRegression.train_step` from `sepsis/model.py`, given the
forward-pass outputs for the batch and the prior metric states. -/
def train_step {c : ℕ} (cce : ℤ → (Fin c → ℚ) → ℚ) (mean std : ℚ)
    (lt ct mt : MeanState) (batch : List (TrainSample c)) :
    TrainStepOutcome :=
  let loss0 := mse_loss batch
  let m := max_added batch
  let conf := batch.map (conf_loss_of cce m)
  let loss := conf.map (fun cl => loss0 + cl)
  let lt2 := mean_update lt loss
  let ct2 := mean_update ct conf
  let mt2 := mae_metric_update mean std mt (batch.map TrainSample.y)
    (batch.map TrainSample.regression)
  { loss_vec := loss
    conf_loss := conf
    grad_target := loss
    loss_tracker := lt2
    confidence_tracker := ct2
    mae_metric := mt2
    logs := (mean_result lt2, mean_result ct2, mean_result mt2) }

/-- A batch of one sample in which no position has label `1`
(`tokens = [5, 0]`, `token_mask = [True, False]`, so labels are `[2, 0]`
and `max_added = 0`). -/
def zeroAddedSample : TrainSample 3 :=
  { y := 0, regression := 0, tokens := [5, 0], token_mask := [true, false],
    logits := [fun _ => 0, fun _ => 0] }

/-- A batch of one sample with exactly one label-`1` position
(`tokens = [5, 0]`, `token_mask = [False, False]`, labels `[1, 0]`,
`max_added = 1`). -/
def oneAddedSample : TrainSample 3 :=
  { y := 0, regression := 0, tokens := [5, 0], token_mask := [false, false],
    logits := [fun _ => 0, fun _ => 1] }

end SepsisTrainStep

namespace SepsisTrainStep

/-- C2: `AttentionRegression.train_step` computes the total loss per sample
as the mean squared error between `y["reg_out"]` and the regression output
plus that sample's confidence loss — the sum over its resampled token
positions (the first `max_added` and last `max_added` positions) of the
sparse categorical cross-entropy between class labels and embedding logits,
in which tokens of class `0` (padding) contribute `0`; the tensor handed to
`tape.gradient` is exactly this total loss; and the returned dictionary
reports the running means of the total loss, the confidence loss and the
denormalized mean absolute error. -/
theorem train_step_spec {c : ℕ} (cce : ℤ → (Fin c → ℚ) → ℚ) (mean std : ℚ)
    (lt ct mt : MeanState) (batch : List (TrainSample c)) :
    (train_step cce mean std lt ct mt batch).loss_vec =
      batch.map (fun s =>
        (batch.map (fun t => (t.y - t.regression) ^ 2)).sum
            / (batch.length : ℚ)
          + (List.zipWith
              (fun lab lg => if lab = (0 : ℤ) then 0 else cce lab lg)
              (sliceFirst (max_added batch) (labelsOf s)
                ++ sliceLast (max_added batch) (labelsOf s))
              (sliceFirst (max_added batch) s.logits
                ++ sliceLast (max_added batch) s.logits)).sum) ∧
    (train_step cce mean std lt ct mt batch).grad_target =
      (train_step cce mean std lt ct mt batch).loss_vec ∧
    (train_step cce mean std lt ct mt batch).logs.1 =
      (lt.total + ((train_step cce mean std lt ct mt batch).loss_vec).sum)
        / ((lt.count + batch.length : ℕ) : ℚ) ∧
    (train_step cce mean std lt ct mt batch).logs.2.1 =
      (ct.total + ((train_step cce mean std lt ct mt batch).conf_loss).sum)
        / ((ct.count + batch.length : ℕ) : ℚ) ∧
    (train_step cce mean std lt ct mt batch).logs.2.2 =
      (mt.total + (List.zipWith
          (fun t p => |(t * std + mean) - (p * std + mean)|)
          (batch.map TrainSample.y)
          (batch.map TrainSample.regression)).sum)
        / ((mt.count + batch.length : ℕ) : ℚ) := by
  refine ⟨?_, rfl, ?_, ?_, ?_⟩
  · show (batch.map (conf_loss_of cce (max_added batch))).map
        (fun cl => mse_loss batch + cl) = _
    rw [List.map_map]
    apply List.map_congr_left
    intro s _
    simp only [Function.comp_apply, mse_loss, conf_loss_of,
      select_equal_class, token_loss]
    rfl
  · simp only [train_step, mean_result, mean_update, List.length_map,
      List.map_map, Nat.cast_add]
  · simp only [train_step, mean_result, mean_update, List.length_map,
      List.map_map, Nat.cast_add]
  · simp only [train_step, mean_result, mae_metric_update, List.length_map,
      List.map_map, Nat.cast_add]

/-- C3 counterexample: in a batch whose single sample has labels `[2, 0]`
(so `max_added = 0`), the Python slice `[-0:]` is the whole sequence, so
`select_equal_class` keeps all `2` token positions of the sample, not
`2 * max_added = 0` of them. -/
theorem select_equal_class_counterexample :
    max_added [zeroAddedSample] = 0 ∧
    (select_equal_class (max_added [zeroAddedSample]) zeroAddedSample.logits
      (labelsOf zeroAddedSample)).2.length = 2 ∧
    ¬ ((select_equal_class (max_added [zeroAddedSample])
        zeroAddedSample.logits (labelsOf zeroAddedSample)).2.length =
      2 * max_added [zeroAddedSample]) := by
  refine ⟨rfl, rfl, ?_⟩
  intro h
  simp only [max_added, zeroAddedSample, labelsOf, addedCount,
    select_equal_class, sliceFirst, sliceLast] at h
  revert h
  decide

theorem foldl_max_le (n : ℕ) (l : List ℕ) (h : ∀ x ∈ l, x ≤ n) :
    ∀ a, a ≤ n → l.foldl max a ≤ n := by
  induction l with
  | nil =>
      intro a ha
      simpa using ha
  | cons x t ih =>
      intro a ha
      simp only [List.foldl_cons]
      exact ih (fun y hy => h y (List.mem_cons_of_mem x hy)) (max a x)
        (max_le ha (h x (List.mem_cons_self x t)))

theorem labelsOf_length {c : ℕ} (s : TrainSample c) (n : ℕ)
    (ht : s.tokens.length = n) (hmsk : s.token_mask.length = n) :
    (labelsOf s).length = n := by
  unfold labelsOf
  rw [List.length_zipWith, ht, hmsk]
  exact Nat.min_self n

theorem max_added_le {c : ℕ} (batch : List (TrainSample c)) (n : ℕ)
    (hlen : ∀ s ∈ batch, s.tokens.length = n ∧ s.token_mask.length = n ∧
      s.logits.length = n) :
    max_added batch ≤ n := by
  unfold max_added
  apply foldl_max_le n _ _ 0 (Nat.zero_le n)
  intro x hx
  rw [List.mem_map] at hx
  obtain ⟨s, hs, rfl⟩ := hx
  calc addedCount s ≤ (labelsOf s).length := List.length_filter_le _ _
    _ = n := labelsOf_length s n (hlen s hs).1 (hlen s hs).2.1

/-- C3 (amended): in a batch of samples with `n` token positions each and
`max_added ≥ 1` (the claim fails for `max_added = 0`, when the Python slice
`[-0:]` keeps the whole sequence), `select_equal_class` keeps exactly the
first `max_added` and the last `max_added` token positions of every sample
— `max_added` being the maximum over the batch of the number of label-`1`
("added") tokens — so every sample contributes exactly `2 * max_added`
positions to the confidence loss. -/
theorem select_equal_class_spec {c : ℕ} (batch : List (TrainSample c))
    (n : ℕ)
    (hlen : ∀ s ∈ batch, s.tokens.length = n ∧ s.token_mask.length = n ∧
      s.logits.length = n)
    (hm : 1 ≤ max_added batch) :
    max_added batch = (batch.map addedCount).foldl max 0 ∧
    ∀ s ∈ batch,
      (select_equal_class (max_added batch) s.logits (labelsOf s)).1 =
        s.logits.take (max_added batch)
          ++ s.logits.drop (s.logits.length - max_added batch) ∧
      (select_equal_class (max_added batch) s.logits (labelsOf s)).2 =
        (labelsOf s).take (max_added batch)
          ++ (labelsOf s).drop ((labelsOf s).length - max_added batch) ∧
      (select_equal_class (max_added batch) s.logits
        (labelsOf s)).1.length = 2 * max_added batch ∧
      (select_equal_class (max_added batch) s.logits
        (labelsOf s)).2.length = 2 * max_added batch := by
  have hma := max_added_le batch n hlen
  have hmne : max_added batch ≠ 0 := by omega
  refine ⟨rfl, ?_⟩
  intro s hs
  have hlog : s.logits.length = n := (hlen s hs).2.2
  have hlab : (labelsOf s).length = n :=
    labelsOf_length s n (hlen s hs).1 (hlen s hs).2.1
  refine ⟨?_, ?_, ?_, ?_⟩
  · show sliceFirst (max_added batch) s.logits
        ++ sliceLast (max_added batch) s.logits = _
    unfold sliceFirst sliceLast
    rw [if_neg hmne]
  · show sliceFirst (max_added batch) (labelsOf s)
        ++ sliceLast (max_added batch) (labelsOf s) = _
    unfold sliceFirst sliceLast
    rw [if_neg hmne]
  · show (sliceFirst (max_added batch) s.logits
        ++ sliceLast (max_added batch) s.logits).length = _
    unfold sliceFirst sliceLast
    rw [if_neg hmne, List.length_append, List.length_take, List.length_drop]
    omega
  · show (sliceFirst (max_added batch) (labelsOf s)
        ++ sliceLast (max_added batch) (labelsOf s)).length = _
    unfold sliceFirst sliceLast
    rw [if_neg hmne, List.length_append, List.length_take, List.length_drop]
    omega

/-- Witness for the amended C3 on a concrete one-sample batch with
`max_added = 1` and `n = 2`: the sample contributes exactly
`2 * max_added = 2` positions. -/
theorem select_equal_class_spec_witness :
    (select_equal_class (max_added [oneAddedSample]) oneAddedSample.logits
      (labelsOf oneAddedSample)).2.length = 2 * max_added [oneAddedSample] :=
  ((select_equal_class_spec [oneAddedSample] 2
      (by
        intro s hs
        rw [List.mem_singleton] at hs
        subst hs
        exact ⟨rfl, rfl, rfl⟩)
      (by decide)).2
    oneAddedSample (List.mem_singleton_self _)).2.2.2

end SepsisTrainStep

namespace ProjectEncoderLog

/-- Modelled from the spec: `_pairwise_distances` as used by the callback is
imported from `amplicon_gpt.losses`, whose source file is not among the
sources; per the spec the predicted ordination is computed from the Euclidean
pairwise distances between the model's predicted embeddings, so this builds
the matrix of Euclidean distances between rows, `sqrt` abstracting the
square root. -/
def euclid_distances (sqrt : ℚ → ℚ) (rows : List (List ℚ)) :
    List (List ℚ) :=
  rows.map (fun u => rows.map (fun v =>
    sqrt (((u.zip v).map (fun p => (p.1 - p.2) ^ 2)).sum)))

/-- A distance matrix handed to `skbio.stats.ordination.pcoa`: either the
`DistanceMatrix` built from predicted-embedding distances with explicit
sample ids, or the unweighted UniFrac matrix of the table and tree filtered
to the sample ids. -/
inductive DistSpec where
  | embedding (dists : List (List ℚ)) (ids : List String)
  | unifracFiltered (table_path tree_path : String) (ids : List String)

/-- The sample ids a distance matrix is over. -/
def DistSpec.ids : DistSpec → List String
  | .embedding _ i => i
  | .unifracFiltered _ _ i => i

/-- A `pcoa(matrix, method='fsvd', number_of_dimensions=3, inplace=True)`
call. -/
structure PcoaCall where
  matrix : DistSpec
  number_of_dimensions : ℕ

/-- The constructor state of a `ProjectEncoder` callback read by
`_log_epoch_data`. -/
structure EncoderState where
  table_ids : List String
  batch_size : ℕ
  num_samples : ℕ
  table_path : String
  tree_path : String
  pred_pcoa_path : String
  true_pcoa_path : String

/-- What one `_log_epoch_data()` call produces: the model save and the two
ordination writes `(path, pcoa call)`. -/
structure LogResult where
  model_saved : Bool
  pred_write : String × PcoaCall
  true_write : String × PcoaCall

/-- `ProjectEncoder._log_epoch_data` from `amplicon_gpt/callbacks.py`: save
the model; `total_samples = int(table.shape[1] / batch_size) * batch_size`;
`sample_indices = shuffle(arange(total_samples))[:num_samples]` — the
shuffled array is the parameter `shuffled`; gather the model's predictions
and the table's sample ids at those indices; write a 3-dimensional PCoA of
the Euclidean distances between the gathered predictions and a 3-dimensional
PCoA of the unweighted UniFrac matrix of the table and tree filtered to the
same ids. -/
def log_epoch_data (sqrt : ℚ → ℚ) (st : EncoderState) (shuffled : List ℕ)
    (pred : List (List ℚ)) : LogResult :=
  let sample_indices := shuffled.take st.num_samples
  let gathered := sample_indices.map (fun i => pred.getD i [])
  let sel_ids := sample_indices.map (fun i => st.table_ids.getD i "")
  { model_saved := true
    pred_write := (st.pred_pcoa_path,
      ⟨DistSpec.embedding (euclid_distances sqrt gathered) sel_ids, 3⟩)
    true_write := (st.true_pcoa_path,
      ⟨DistSpec.unifracFiltered st.table_path st.tree_path sel_ids, 3⟩) }

/-- A concrete `ProjectEncoder` state used to witness the C4 theorem. -/
def encoderStateW : EncoderState :=
  { table_ids := ["a", "b"], batch_size := 1, num_samples := 1,
    table_path := "t.biom", tree_path := "t.nwk",
    pred_pcoa_path := "pred.pcoa", true_pcoa_path := "true.pcoa" }

end ProjectEncoderLog

namespace ProjectEncoderLog

/-- C4: on each call, `_log_epoch_data` saves the model, draws one random
subset of at most `num_samples` indices out of
`total_samples = (table sample count / batch_size) * batch_size` — the
largest multiple of `batch_size` not exceeding the sample count — and writes
two 3-dimensional PCoA ordinations over that same subset of sample ids: one
from the Euclidean pairwise distances of the predicted embeddings gathered
at those indices, one from the unweighted UniFrac matrix of the table and
tree filtered to the same ids. -/
theorem log_epoch_data_spec (sqrt : ℚ → ℚ) (st : EncoderState)
    (shuffled : List ℕ) (pred : List (List ℚ))
    (hb : 0 < st.batch_size)
    (hperm : shuffled.Perm (List.range
      (st.table_ids.length / st.batch_size * st.batch_size))) :
    (log_epoch_data sqrt st shuffled pred).model_saved = true ∧
    (log_epoch_data sqrt st shuffled pred).pred_write.1 =
      st.pred_pcoa_path ∧
    (log_epoch_data sqrt st shuffled pred).true_write.1 =
      st.true_pcoa_path ∧
    (log_epoch_data sqrt st shuffled pred).pred_write.2.number_of_dimensions
      = 3 ∧
    (log_epoch_data sqrt st shuffled pred).true_write.2.number_of_dimensions
      = 3 ∧
    (log_epoch_data sqrt st shuffled pred).pred_write.2.matrix.ids =
      (log_epoch_data sqrt st shuffled pred).true_write.2.matrix.ids ∧
    ((log_epoch_data sqrt st shuffled pred).pred_write.2.matrix.ids).length
      ≤ st.num_samples ∧
    (∀ k ∈ shuffled.take st.num_samples,
      k < st.table_ids.length / st.batch_size * st.batch_size) ∧
    st.batch_size ∣ st.table_ids.length / st.batch_size * st.batch_size ∧
    st.table_ids.length / st.batch_size * st.batch_size
      ≤ st.table_ids.length ∧
    st.table_ids.length <
      st.table_ids.length / st.batch_size * st.batch_size + st.batch_size ∧
    (log_epoch_data sqrt st shuffled pred).pred_write.2.matrix =
      DistSpec.embedding
        (euclid_distances sqrt
          ((shuffled.take st.num_samples).map (fun i => pred.getD i [])))
        ((shuffled.take st.num_samples).map
          (fun i => st.table_ids.getD i "")) ∧
    (log_epoch_data sqrt st shuffled pred).true_write.2.matrix =
      DistSpec.unifracFiltered st.table_path st.tree_path
        ((shuffled.take st.num_samples).map
          (fun i => st.table_ids.getD i "")) := by
  refine ⟨rfl, rfl, rfl, rfl, rfl, rfl, ?_, ?_, ?_, ?_, ?_, rfl, rfl⟩
  · show ((shuffled.take st.num_samples).map
        (fun i => st.table_ids.getD i "")).length ≤ st.num_samples
    rw [List.length_map, List.length_take]
    exact min_le_left _ _
  · intro k hk
    have hmem : k ∈ shuffled := (List.take_sublist _ _).subset hk
    have := hperm.subset hmem
    exact List.mem_range.mp this
  · exact ⟨st.table_ids.length / st.batch_size, Nat.mul_comm _ _⟩
  · exact Nat.div_mul_le_self _ _
  · have h1 := Nat.div_add_mod st.table_ids.length st.batch_size
    have h2 := Nat.mod_lt st.table_ids.length hb
    calc st.table_ids.length
        = st.batch_size * (st.table_ids.length / st.batch_size)
          + st.table_ids.length % st.batch_size := h1.symm
      _ < st.batch_size * (st.table_ids.length / st.batch_size)
          + st.batch_size := Nat.add_lt_add_left h2 _
      _ = st.table_ids.length / st.batch_size * st.batch_size
          + st.batch_size := by rw [Nat.mul_comm]

/-- Witness for C4 at a concrete state with two samples, `batch_size = 1`,
`num_samples = 1` and the shuffle `[1, 0]`: both ordinations are over the
same sample ids. -/
theorem log_epoch_data_spec_witness :
    (log_epoch_data (fun x => x) encoderStateW [1, 0]
      [[0], [1]]).pred_write.2.matrix.ids =
    (log_epoch_data (fun x => x) encoderStateW [1, 0]
      [[0], [1]]).true_write.2.matrix.ids :=
  (log_epoch_data_spec (fun x => x) encoderStateW [1, 0] [[0], [1]]
    (by decide) (by decide)).2.2.2.2.2.1

end ProjectEncoderLog
